import Mathlib

/-!
Verification of the remctl network/daemon core (src/util/network.c and
src/server/remctld.c) against its specification.

The C code is shallowly embedded: pure string/address computations
(inet_aton, inet_pton, network_addr_match, network_sockaddr_equal) become
Lean functions over Nat and List; code whose behaviour depends on the
operating system (socket, bind, connect, accept, GSS-API credential
acquisition) is modelled by threading the outcome of each such call as an
explicit oracle value and recording the observable events (descriptor
creation, descriptor close, accept, handler dispatch) in a trace, so that
resource-leak and ordering properties can be stated and proved.

Machine integers are modelled as Nat with explicit bounds where overflow
matters; IPv4 addresses are the 32-bit network-byte-order value (big-endian
byte significance), IPv6 addresses are their 16 bytes, which matches how
the C code compares them (s_addr as one 32-bit unit, s6_addr byte by byte).
-/

/-- Decimal digit test, ASCII 48..57 (C isdigit on the portable range). -/
def isDigitC (c : Char) : Bool := decide (48 ≤ c.toNat ∧ c.toNat ≤ 57)

/-- Whitespace test matching C isspace in the POSIX locale:
space (32) and the control characters 9..13. -/
def isSpaceC (c : Char) : Bool :=
  decide (c.toNat = 32 ∨ (9 ≤ c.toNat ∧ c.toNat ≤ 13))

/-- Hexadecimal digit value, used by the classic inet_aton number scanner
and by the inet_pton IPv6 group scanner. -/
def hexDigitVal (c : Char) : Option Nat :=
  if 48 ≤ c.toNat ∧ c.toNat ≤ 57 then some (c.toNat - 48)
  else if 97 ≤ c.toNat ∧ c.toNat ≤ 102 then some (c.toNat - 87)
  else if 65 ≤ c.toNat ∧ c.toNat ≤ 70 then some (c.toNat - 55)
  else none

/-- Leading-whitespace skipper of strtoul: returns the number of
characters skipped and the remaining input. -/
def skipSp : List Char → Nat × List Char
  | [] => (0, [])
  | c :: cs =>
    if isSpaceC c then
      let r := skipSp cs
      (r.1 + 1, r.2)
    else (0, c :: cs)

/-- Optional sign of strtoul: (negate?, characters consumed, rest). -/
def splitSign : List Char → Bool × Nat × List Char
  | [] => (false, 0, [])
  | c :: cs =>
    if c = '-' then (true, 1, cs)
    else if c = '+' then (false, 1, cs)
    else (false, 0, c :: cs)

/-- Decimal-digit accumulator of strtoul: starting from acc, consumes
leading decimal digits, returning the (unbounded) accumulated value and
the number of digits consumed. -/
def digitsAux (acc : Nat) : List Char → Nat × Nat
  | [] => (acc, 0)
  | c :: cs =>
    if isDigitC c then
      let r := digitsAux (acc * 10 + (c.toNat - 48)) cs
      (r.1, r.2 + 1)
    else (acc, 0)

/-- Decimal value of a digit string (most significant digit first). -/
def decVal (cs : List Char) : Nat :=
  cs.foldl (fun a c => a * 10 + (c.toNat - 48)) 0

/-- Model of C strtoul(s, &end, 10) on a 64-bit unsigned long: skips
leading whitespace, accepts an optional sign, then decimal digits.
Returns (value, number of characters consumed up to end).  If no digits
are found no conversion is performed: the result is (0, 0), i.e. end is
left at the start of the string.  On overflow the value is ULONG_MAX; a
negated value wraps modulo 2^64. -/
def strtoul10 (cs : List Char) : Nat × Nat :=
  let sp := skipSp cs
  let sg := splitSign sp.2
  let dg := digitsAux 0 sg.2.2
  if dg.2 = 0 then (0, 0)
  else if 2 ^ 64 - 1 < dg.1 then (2 ^ 64 - 1, sp.1 + sg.2.1 + dg.2)
  else ((if sg.1 then (2 ^ 64 - dg.1 % 2 ^ 64) % 2 ^ 64 else dg.1),
        sp.1 + sg.2.1 + dg.2)

/-- Number scanner of the classic (BSD) inet_aton: digits are accepted
with the current base (so "09" is read as octal 0*8+9, a quirk of the
original loop), and additionally hexadecimal letters when the base is 16.
Returns the accumulated value and the remaining input. -/
def atonDigits (base : Nat) (hex : Bool) (val : Nat) : List Char → Nat × List Char
  | [] => (val, [])
  | c :: cs =>
    if isDigitC c then atonDigits base hex (val * base + (c.toNat - 48)) cs
    else if hex then
      match hexDigitVal c with
      | some d => atonDigits base hex (val * 16 + d) cs
      | none => (val, c :: cs)
    else (val, c :: cs)

/-- One numeric part of inet_aton: must start with a digit; a leading
"0x"/"0X" selects base 16, a leading "0" base 8, otherwise base 10. -/
def atonNum : List Char → Option (Nat × List Char)
  | [] => none
  | c :: cs =>
    if isDigitC c = false then none
    else if c = '0' then
      match cs with
      | [] => some (0, [])
      | x :: cs' =>
        if x = 'x' ∨ x = 'X' then some (atonDigits 16 true 0 cs')
        else some (atonDigits 8 false 0 (x :: cs'))
    else some (atonDigits 10 false 0 (c :: cs))

/-- Dot-separated part loop of inet_aton: collects up to three completed
parts plus the final value; a fifth part is a parse error.  The fuel is
an upper bound on the number of parts (4 suffices). -/
def atonParts : Nat → List Char → List Nat → Option (List Nat × Nat × List Char)
  | 0, _, _ => none
  | fuel + 1, cs, parts =>
    match atonNum cs with
    | none => none
    | some (val, rest) =>
      match rest with
      | '.' :: tail =>
        if 3 ≤ parts.length then none
        else atonParts fuel tail (parts ++ [val])
      | _ => some (parts, val, rest)

/-- Assembly step of inet_aton: combines the completed parts and the
final value into the 32-bit address, enforcing the classic range rules
(a, a.b, a.b.c, a.b.c.d forms). -/
def atonCombine : List Nat → Nat → Option Nat
  | [], v => if v ≤ 0xffffffff then some v else none
  | [p0], v =>
    if p0 ≤ 0xff ∧ v ≤ 0xffffff then some (p0 * 2 ^ 24 + v) else none
  | [p0, p1], v =>
    if p0 ≤ 0xff ∧ p1 ≤ 0xff ∧ v ≤ 0xffff then
      some (p0 * 2 ^ 24 + p1 * 2 ^ 16 + v)
    else none
  | [p0, p1, p2], v =>
    if p0 ≤ 0xff ∧ p1 ≤ 0xff ∧ p2 ≤ 0xff ∧ v ≤ 0xff then
      some (p0 * 2 ^ 24 + p1 * 2 ^ 16 + p2 * 2 ^ 8 + v)
    else none
  | _, _ => none

/-- Model of the classic (4.4BSD) inet_aton called by network.c: parses
one to four dot-separated numeric parts (decimal, octal or hex), accepts
trailing text only after whitespace, and returns the 32-bit address in
network byte order (modelled as the big-endian value). -/
def inet_aton (s : String) : Option Nat :=
  match atonParts 4 s.toList [] with
  | none => none
  | some (parts, val, rest) =>
    match rest with
    | [] => atonCombine parts val
    | c :: _ => if isSpaceC c then atonCombine parts val else none

/-- Strict dotted-quad scanner of inet_pton(AF_INET) as used for the
embedded IPv4 tail of an IPv6 literal: exactly four decimal octets
0..255, no leading zeros, nothing else.  Returns the four bytes. -/
def pton4Loop : List Char → Bool → Nat → List Nat → Option (List Nat)
  | [], sawD, cur, acc =>
    if sawD ∧ acc.length = 3 then some (acc ++ [cur]) else none
  | c :: cs, sawD, cur, acc =>
    if isDigitC c then
      let nw := cur * 10 + (c.toNat - 48)
      if 255 < nw then none
      else if sawD ∧ cur = 0 then none
      else pton4Loop cs true nw acc
    else if c = '.' then
      if sawD = false then none
      else if 3 ≤ acc.length then none
      else pton4Loop cs false 0 (acc ++ [cur])
    else none

/-- Strict IPv4 parse used inside inet_pton(AF_INET6). -/
def inet_pton4s (cs : List Char) : Option (List Nat) := pton4Loop cs false 0 []

/-- Epilogue of inet_pton(AF_INET6): if a "::" gap was seen, inserts the
zero bytes it stands for (the gap must stand for at least one group);
otherwise the address must be exactly 16 bytes. -/
def pton6Finish (tp : List Nat) (colonp : Option Nat) : Option (List Nat) :=
  match colonp with
  | some n =>
    if tp.length = 16 then none
    else some (tp.take n ++ List.replicate (16 - tp.length) 0 ++ tp.drop n)
  | none => if tp.length = 16 then some tp else none

/-- Main scanner of inet_pton(AF_INET6) (BSD structure): walks the input
accumulating 16-bit groups; curtok is the suffix at the start of the
current token (needed for an embedded IPv4 tail); colonp records the byte
position of the at-most-one "::" gap. -/
def pton6Loop : List Char → List Char → Bool → Nat → List Nat → Option Nat →
    Option (List Nat)
  | [], _, sawX, val, tp, colonp =>
    if sawX then
      if tp.length + 2 ≤ 16 then
        pton6Finish (tp ++ [val / 256, val % 256]) colonp
      else none
    else pton6Finish tp colonp
  | c :: cs, curtok, sawX, val, tp, colonp =>
    match hexDigitVal c with
    | some d =>
      let v := val * 16 + d
      if 0xffff < v then none else pton6Loop cs curtok true v tp colonp
    | none =>
      if c = ':' then
        if sawX = false then
          if colonp.isSome then none
          else pton6Loop cs cs false 0 tp (some tp.length)
        else if cs = [] then none
        else if 16 < tp.length + 2 then none
        else pton6Loop cs cs false 0 (tp ++ [val / 256, val % 256]) colonp
      else if c = '.' ∧ tp.length + 4 ≤ 16 then
        match inet_pton4s curtok with
        | some bs => pton6Finish (tp ++ bs) colonp
        | none => none
      else none

/-- Model of inet_pton(AF_INET6, s, ...): strict RFC 2373 textual IPv6
parse, returning the 16 address bytes.  A single leading ':' is only
allowed as part of a leading "::". -/
def inet_pton6 (s : String) : Option (List Nat) :=
  match s.toList with
  | ':' :: ':' :: _ => pton6Loop (s.toList.drop 1) (s.toList.drop 1) false 0 [] none
  | ':' :: _ => none
  | cs => pton6Loop cs cs false 0 [] none

/-- Left-justified 32-bit CIDR bitmask, computed exactly as the loop in
network_addr_match does (bits |= 1 << (31 - i) for i < cidr); the htonl
around it is the identity in this big-endian value model. -/
def leftMask32 (cidr : Nat) : Nat :=
  (List.range cidr).foldl (fun b i => b ||| 2 ^ (31 - i)) 0

/-- Top-bits mask of a final partial byte in the IPv6 comparison loop of
network_addr_match (addr_mask |= 1 << (7 - bits) for bits < cidr % 8). -/
def topMask8 (n : Nat) : Nat :=
  (List.range n).foldl (fun b i => b ||| 2 ^ (7 - i)) 0

/-- Byte comparison loop of the IPv6 branch of network_addr_match: for
every byte index i with i*8 < cidr, full bytes ((i+1)*8 <= cidr) must be
equal and the final partial byte must agree on the top cidr % 8 bits. -/
def v6MatchBytes (a6 b6 : List Nat) (cidr : Nat) : Bool :=
  (List.range 16).all fun i =>
    if i * 8 < cidr then
      if (i + 1) * 8 ≤ cidr then decide (a6.getD i 0 = b6.getD i 0)
      else decide (a6.getD i 0 &&& topMask8 (cidr % 8)
                    = b6.getD i 0 &&& topMask8 (cidr % 8))
    else true

/-- The 32-bit mask the IPv4 branch of network_addr_match computes (lines
505-517): absent mask means all bits; a mask with no '.' goes through
strtoul and is rejected on a value above 32 or trailing text (note that
the check does not reject an empty conversion, where strtoul leaves end
at the start of the string); any other mask goes through inet_aton.
none stands for the early return 0. -/
def ipv4MaskOf : Option String → Option Nat
  | none => some 0xffffffff
  | some m =>
    if m.toList.contains '.' then
      match inet_aton m with
      | some t => some t
      | none => none
    else
      let r := strtoul10 m.toList
      if 32 < r.1 ∨ r.2 ≠ m.toList.length then none
      else some (leftMask32 r.1)

/-- The CIDR prefix the IPv6 branch of network_addr_match computes (lines
526-532): absent mask means 128; otherwise strtoul, rejected above 128 or
on trailing text (again an empty conversion is not rejected). -/
def ipv6CidrOf : Option String → Option Nat
  | none => some 128
  | some m =>
    let r := strtoul10 m.toList
    if 128 < r.1 ∨ r.2 ≠ m.toList.length then none else some r.1

/-- Model of network_addr_match (src/util/network.c lines 488-548): if
both strings parse with inet_aton, the IPv4 mask is computed and the
masked 32-bit values are compared; otherwise both strings must parse with
inet_pton(AF_INET6) and the first cidr bits are compared byte by byte. -/
def network_addr_match (a b : String) (mask : Option String) : Bool :=
  match inet_aton a, inet_aton b with
  | some a4, some b4 =>
    match ipv4MaskOf mask with
    | some msk => decide (a4 &&& msk = b4 &&& msk)
    | none => false
  | _, _ =>
    match inet_pton6 a, inet_pton6 b with
    | some a6, some b6 =>
      match ipv6CidrOf mask with
      | some cidr => v6MatchBytes a6 b6 cidr
      | none => false
    | _, _ => false

/-- Specification-side reading of the IPv4 mask argument (spec section
4.5): absent means all 32 bits; a mask containing no '.' is a decimal
CIDR prefix length 0-32 (a nonempty string of decimal digits) converted
to a left-justified bitmask; any other mask is parsed as a dotted-quad
bitmask.  Used only to state the refinement claim about the IPv4 branch
of network_addr_match. -/
def cidrMaskSpec : Option String → Option Nat
  | none => some 0xffffffff
  | some m =>
    if m.toList.contains '.' then inet_aton m
    else if m.toList ≠ [] ∧ m.toList.all isDigitC ∧ decVal m.toList ≤ 32 then
      some (leftMask32 (decVal m.toList))
    else none

/-- Socket addresses as network_sockaddr_equal consumes them: an IPv4
sockaddr_in carrying the 32-bit network-order address, an IPv6
sockaddr_in6 carrying the 16 address bytes, or a sockaddr of any family
other than AF_INET and AF_INET6 (the code never reads address bytes of
such a sockaddr, only its family). -/
inductive Sockaddr
  | in4 (port : Nat) (addr : Nat)
  | in6 (port : Nat) (addr : List Nat)
  | unkn (fam : Nat)
deriving DecidableEq

/-- Big-endian bytes of a 32-bit value (the layout of s_addr). -/
def toBytes4 (v : Nat) : List Nat :=
  [v / 2 ^ 24 % 256, v / 2 ^ 16 % 256, v / 2 ^ 8 % 256, v % 256]

/-- The 32-bit value read back from 4 bytes by the memcpy in
network_sockaddr_equal and network_sockaddr_sprint. -/
def fromBytes4 : List Nat → Nat
  | [w, x, y, z] => w * 2 ^ 24 + x * 2 ^ 16 + y * 2 ^ 8 + z
  | _ => 0

/-- The IPv4-mapped IPv6 address embedding a 32-bit IPv4 address. -/
def v4mapped (v : Nat) : List Nat :=
  [0, 0, 0, 0, 0, 0, 0, 0, 0, 0, 0xff, 0xff] ++ toBytes4 v

/-- IN6_IS_ADDR_V4MAPPED: the first 10 bytes are zero and bytes 10 and 11
are 0xff. -/
def isV4Mapped (a6 : List Nat) : Bool :=
  decide (a6.take 12 = [0, 0, 0, 0, 0, 0, 0, 0, 0, 0, 0xff, 0xff])

/-- Body of network_sockaddr_equal after its initial swap (src/util/
network.c lines 435-453): IPv6 against IPv6 is byte equality, IPv6
against IPv4 compares the embedded address when the IPv6 one is
IPv4-mapped, anything else falls through to the final AF_INET check. -/
def equalMain : Sockaddr → Sockaddr → Bool
  | .in6 _ a6, .in6 _ b6 => decide (a6 = b6)
  | .in6 _ a6, .in4 _ b4 =>
    if isV4Mapped a6 then decide (fromBytes4 (a6.drop 12) = b4) else false
  | .in6 _ _, .unkn _ => false
  | .in4 _ a4, .in4 _ b4 => decide (a4 = b4)
  | _, _ => false

/-- Model of network_sockaddr_equal (src/util/network.c lines 417-454):
swaps the arguments when the first is AF_INET and the second AF_INET6,
then runs the main comparison. -/
def network_sockaddr_equal (a b : Sockaddr) : Bool :=
  match a, b with
  | .in4 p a4, .in6 q b6 => equalMain (.in6 q b6) (.in4 p a4)
  | _, _ => equalMain a b

/-- Outcomes of the operating-system calls made by one bind_ipv4 or
bind_ipv6 invocation: whether socket() succeeds and whether bind()
succeeds. -/
structure BindEnv where
  sockOk : Bool
  bindOk : Bool
deriving DecidableEq

/-- Observable result of a bind call: the returned descriptor (none for
-1) plus the descriptors the call created and the descriptors it closed.
The single socket the call can create is descriptor 0. -/
structure BindOut where
  fd : Option Nat
  opened : List Nat
  closed : List Nat
deriving DecidableEq

/-- Model of network_bind_ipv4 (src/util/network.c lines 78-111).  The
source returns -1 on an unparsable address (line 102) and on a failed
bind (line 108) without closing the descriptor created at line 86, so
those two failure paths leave the descriptor open. -/
def network_bind_ipv4 (env : BindEnv) (address : String) (_port : Nat) : BindOut :=
  if env.sockOk = false then ⟨none, [], []⟩
  else
    let address := if address = "any" ∨ address = "all" then "0.0.0.0" else address
    match inet_aton address with
    | none => ⟨none, [0], []⟩
    | some _ =>
      if env.bindOk = false then ⟨none, [0], []⟩
      else ⟨some 0, [0], []⟩

/-- Model of network_bind_ipv6 (src/util/network.c lines 122-158, the
HAVE_INET6 build).  Unlike the IPv4 twin, both its failure paths after
socket creation close the descriptor (lines 147 and 154). -/
def network_bind_ipv6 (env : BindEnv) (address : String) (_port : Nat) : BindOut :=
  if env.sockOk = false then ⟨none, [], []⟩
  else
    let address := if address = "any" ∨ address = "all" then "::" else address
    match inet_pton6 address with
    | none => ⟨none, [0], [0]⟩
    | some _ =>
      if env.bindOk = false then ⟨none, [0], [0]⟩
      else ⟨some 0, [0], []⟩

/-- Outcome of the socket() call for one connection candidate: success,
or failure with the errno it sets. -/
inductive SockRes
  | ok
  | fail (err : Nat)
deriving DecidableEq

/-- Outcome of network_source for one candidate: ok covers no source
given, source "all", an unknown family, and a successful bind; parseFail
is inet_aton/inet_pton failing on the source text (network_source returns
0 without a bind call, so errno is untouched); bindFail is the bind()
call failing with the errno it sets. -/
inductive SrcRes
  | ok
  | parseFail
  | bindFail (err : Nat)
deriving DecidableEq

/-- One addrinfo candidate of network_connect, carrying the outcomes of
the operating-system calls that would be made for it: socket(), the
source bind via network_source, and connect() (with the errno a failed
connect sets).  The addrinfo fields themselves (family, socktype,
address) only feed those calls and are elided. -/
structure Candidate where
  sock : SockRes
  src : SrcRes
  connOk : Bool
  connErr : Nat
deriving DecidableEq

/-- Observable events of one network_connect run: descriptor close,
socket creation (with the descriptor or failure), the source-bind
attempt, and the connect attempt. -/
inductive ConnEv
  | closeEv (f : Nat)
  | sockEv (r : Option Nat)
  | srcEv (f : Nat) (ok : Bool)
  | connEv (f : Nat) (ok : Bool)
deriving DecidableEq

/-- State threaded through the network_connect loop: the next descriptor
number the (always succeeding) descriptor allocator returns, and errno. -/
structure ConnSt where
  nextFd : Nat
  errno : Nat
deriving DecidableEq

/-- Model of the candidate loop of network_connect (src/util/network.c
lines 293-305) plus its failure epilogue (lines 308-314): at each
iteration any descriptor left from the previous attempt is closed first;
a failed socket() leaves fd at -1 and moves on; a failed source bind
moves on keeping the new descriptor for the next iteration to close; a
successful connect returns that descriptor at once.  After the loop, a
leftover descriptor is closed with errno saved and restored around the
close.  Returns (result, final state, event trace). -/
def connectLoop : List Candidate → Option Nat → ConnSt →
    Option Nat × ConnSt × List ConnEv
  | [], fdv, st =>
    match fdv with
    | some f => (none, st, [.closeEv f])
    | none => (none, st, [])
  | c :: rest, fdv, st =>
    let pre : List ConnEv := match fdv with | some f => [.closeEv f] | none => []
    match c.sock with
    | .fail e =>
      let r := connectLoop rest none { st with errno := e }
      (r.1, r.2.1, pre ++ [.sockEv none] ++ r.2.2)
    | .ok =>
      let f := st.nextFd
      let st1 : ConnSt := { st with nextFd := st.nextFd + 1 }
      match c.src with
      | .parseFail =>
        let r := connectLoop rest (some f) st1
        (r.1, r.2.1, pre ++ [.sockEv (some f), .srcEv f false] ++ r.2.2)
      | .bindFail e =>
        let r := connectLoop rest (some f) { st1 with errno := e }
        (r.1, r.2.1, pre ++ [.sockEv (some f), .srcEv f false] ++ r.2.2)
      | .ok =>
        if c.connOk then
          (some f, st1, pre ++ [.sockEv (some f), .srcEv f true, .connEv f true])
        else
          let r := connectLoop rest (some f) { st1 with errno := c.connErr }
          (r.1, r.2.1,
           pre ++ [.sockEv (some f), .srcEv f true, .connEv f false] ++ r.2.2)

/-- Model of network_connect (src/util/network.c lines 286-316): runs the
candidate loop starting with no descriptor, descriptor numbering from 0,
and the ambient errno e0. -/
def network_connect (cs : List Candidate) (e0 : Nat) :
    Option Nat × ConnSt × List ConnEv :=
  connectLoop cs none ⟨0, e0⟩

/-- Descriptors created during a trace, in creation order. -/
def sockFds (t : List ConnEv) : List Nat :=
  t.filterMap fun e => match e with | .sockEv (some f) => some f | _ => none

/-- Descriptors closed during a trace, in close order. -/
def closedFds (t : List ConnEv) : List Nat :=
  t.filterMap fun e => match e with | .closeEv f => some f | _ => none

/-- Change of the number of open descriptors caused by one event. -/
def openStep (cur : Nat) (e : ConnEv) : Nat :=
  match e with
  | .sockEv (some _) => cur + 1
  | .closeEv _ => cur - 1
  | _ => cur

/-- Number of open descriptors after a trace, starting from c. -/
def openAfter (t : List ConnEv) (c : Nat) : Nat := t.foldl openStep c

/-- True when, starting from c open descriptors, the trace never has more
than one descriptor open after any event. -/
def boundedOpen : List ConnEv → Nat → Bool
  | [], _ => true
  | e :: t, c => decide (openStep c e ≤ 1) && boundedOpen t (openStep c e)

/-- A candidate for which socket(), the source bind and connect() all
succeed. -/
def fullOk (c : Candidate) : Bool :=
  (match c.sock with | .ok => true | _ => false) &&
  (match c.src with | .ok => true | _ => false) && c.connOk

/-- A candidate for which socket() succeeds (and so allocates a
descriptor). -/
def sockOkB (c : Candidate) : Bool :=
  match c.sock with | .ok => true | _ => false

/-- Number of candidates in the list whose socket() call succeeds. -/
def countSockOk (cs : List Candidate) : Nat := (cs.filter sockOkB).length

/-- Index of the first candidate for which every call succeeds. -/
def firstFullOk : List Candidate → Option Nat
  | [] => none
  | c :: t => if fullOk c then some 0 else (firstFullOk t).map (· + 1)

/-- The errno left by processing one candidate with no successful
connect: a failed socket() or a failed source bind() or a failed
connect() overwrites it; a source parse failure leaves it unchanged. -/
def errStep (e : Nat) (c : Candidate) : Nat :=
  match c.sock with
  | .fail er => er
  | .ok =>
    match c.src with
    | .parseFail => e
    | .bindFail er => er
    | .ok => if c.connOk then e else c.connErr

/-- Result of the protocol handling of one accepted connection as
server_handle_connection observes it: the security-context setup fails
(server_new_client returns NULL), or an authenticated client speaking
protocol version 1 or 2. -/
inductive HandlerRes
  | noContext
  | v1
  | v2
deriving DecidableEq

/-- Outcome of one accept() call of the standalone loop. -/
inductive AcceptEv
  | fail
  | conn (h : HandlerRes)
deriving DecidableEq

/-- Observable events of a remctld run. -/
inductive MainEv
  | alarmArm (seconds : Nat)
  | alarmOff
  | configLoad (ok : Bool)
  | acquire (ok : Bool)
  | died
  | sockCreate (ok : Bool)
  | pidWrite
  | acceptCall (r : Option Nat)
  | warnMsg
  | newClient (fd : Nat) (ok : Bool)
  | fdClose (f : Nat)
  | v1Handle (fd : Nat)
  | v2Handle (fd : Nat)
  | freeClient (fd : Nat)
  | releaseCred
  | exitOk
deriving DecidableEq

/-- Model of server_handle_connection (src/server/remctld.c lines
145-169) on descriptor fd: a NULL client closes the descriptor and
returns; otherwise commands are dispatched by protocol version and the
client is freed.  The function returns in every case. -/
def handleConnTr (fd : Nat) : HandlerRes → List MainEv
  | .noContext => [.newClient fd false, .fdClose fd]
  | .v1 => [.newClient fd true, .v1Handle fd, .freeClient fd]
  | .v2 => [.newClient fd true, .v2Handle fd, .freeClient fd]

/-- Model of the standalone accept loop (src/server/remctld.c lines
269-276) run against a finite prefix of accept outcomes, numbering
accepted descriptors from n: a failed accept logs a warning and
continues; a successful accept hands the connection to
server_handle_connection and the loop continues when it returns. -/
def acceptLoop : Nat → List AcceptEv → List MainEv
  | _, [] => []
  | n, .fail :: rest => .acceptCall none :: .warnMsg :: acceptLoop n rest
  | n, .conn h :: rest =>
    .acceptCall (some n) :: (handleConnTr n h ++ acceptLoop (n + 1) rest)

/-- Specification-side description of one iteration of the accept loop
(spec section 4.6): accept once; on failure log and continue; on success
hand the connection to the handler, whose events complete before the
iteration ends. -/
def iterSpec (n : Nat) : AcceptEv → List MainEv
  | .fail => [.acceptCall none, .warnMsg]
  | .conn h => .acceptCall (some n) :: handleConnTr n h

/-- Number of accepted descriptors one iteration consumes. -/
def connInc : AcceptEv → Nat
  | .fail => 0
  | .conn _ => 1

/-- Specification-side accept loop: the concatenation, in order, of one
complete iteration block per accept outcome. -/
def acceptLoopSpec (n : Nat) : List AcceptEv → List MainEv
  | [] => []
  | e :: t => iterSpec n e ++ acceptLoopSpec (n + connInc e) t

/-- Number of accept() calls recorded in a trace. -/
def numAccepts (t : List MainEv) : Nat :=
  (t.filter fun e => match e with | .acceptCall _ => true | _ => false).length

/-- Inputs and operating-system outcomes of one remctld run: the mode and
options from the command line, the outcomes of configuration loading,
credential acquisition, listening-socket creation and pid-file creation,
the handler outcome of the single inetd connection, and the finite prefix
of accept outcomes observed in standalone mode. -/
structure DaemonEnv where
  standalone : Bool
  serviceRequested : Bool
  configOk : Bool
  acquireOk : Bool
  sockOk : Bool
  pidRequested : Bool
  pidOk : Bool
  inetdConn : HandlerRes
  accepts : List AcceptEv
deriving DecidableEq

/-- Standalone path of main after create_socket succeeded (src/server/
remctld.c lines 262-276): optional pid file (a failure to open it is
fatal), then the accept loop with accepted descriptors numbered from 1
(descriptor 0 is the inetd convention, the listening socket is stmp). -/
def remctldAfterSock (env : DaemonEnv) : List MainEv :=
  if env.pidRequested then
    if env.pidOk then .pidWrite :: acceptLoop 1 env.accepts else [.died]
  else acceptLoop 1 env.accepts

/-- Mode dispatch of main (src/server/remctld.c lines 255-282): inetd
mode handles the inherited descriptor 0 once, releases the credential
when one was acquired and exits; standalone mode disarms the watchdog,
creates the listening socket (failure is fatal) and serves. -/
def remctldMode (env : DaemonEnv) : List MainEv :=
  if env.standalone = false then
    handleConnTr 0 env.inetdConn ++
      (if env.serviceRequested then [.releaseCred] else []) ++ [.exitOk]
  else
    .alarmOff :: .sockCreate env.sockOk ::
      (if env.sockOk then remctldAfterSock env else [.died])

/-- Model of main (src/server/remctld.c lines 178-283): arm the one-hour
watchdog, load the configuration (failure is fatal), acquire the scoped
credential when a service was requested (failure is fatal), then dispatch
on the mode. -/
def remctld_main (env : DaemonEnv) : List MainEv :=
  .alarmArm 3600 :: .configLoad env.configOk ::
    (if env.configOk = false then [.died]
     else if env.serviceRequested then
       .acquire env.acquireOk ::
         (if env.acquireOk then remctldMode env else [.died])
     else remctldMode env)

/-! ## Supporting lemmas -/

/-- On an all-digit input the strtoul digit accumulator consumes the whole
input and computes the decimal fold. -/
theorem digitsAux_all_digits (cs : List Char) :
    ∀ acc, cs.all isDigitC = true →
      digitsAux acc cs = (cs.foldl (fun a c => a * 10 + (c.toNat - 48)) acc, cs.length) := by
  induction cs with
  | nil => intro acc _; rfl
  | cons c t ih =>
    intro acc h
    rw [List.all_cons, Bool.and_eq_true] at h
    simp [digitsAux, h.1, ih _ h.2]

/-- On a nonempty all-digit input whose value fits in an unsigned long,
strtoul returns the decimal value and consumes the whole input. -/
theorem strtoul10_digits (c : Char) (t : List Char)
    (h : (c :: t).all isDigitC = true) (hv : decVal (c :: t) ≤ 2 ^ 64 - 1) :
    strtoul10 (c :: t) = (decVal (c :: t), (c :: t).length) := by
  have hc : isDigitC c = true := by
    rw [List.all_cons, Bool.and_eq_true] at h; exact h.1
  have hns : isSpaceC c = false := by
    simp [isDigitC] at hc
    simp [isSpaceC]
    omega
  have hnm : c ≠ '-' := by
    intro e; rw [e] at hc; exact absurd hc (by decide)
  have hnp : c ≠ '+' := by
    intro e; rw [e] at hc; exact absurd hc (by decide)
  have h1 : skipSp (c :: t) = (0, c :: t) := by simp [skipSp, hns]
  have h2 : splitSign (c :: t) = (false, 0, c :: t) := by simp [splitSign, hnm, hnp]
  have h3 : digitsAux 0 (c :: t) = (decVal (c :: t), (c :: t).length) :=
    digitsAux_all_digits (c :: t) 0 h
  simp only [strtoul10]
  rw [h1]
  dsimp only
  rw [h2]
  dsimp only
  rw [h3]
  dsimp only
  rw [if_neg (by simp : ¬(c :: t).length = 0), if_neg (Nat.not_lt.mpr hv)]
  simp

/-- The code's IPv4 mask computation agrees with its specification-side
reading wherever the latter accepts the mask. -/
theorem ipv4MaskOf_of_spec (mask : Option String) (m : Nat)
    (hm : cidrMaskSpec mask = some m) : ipv4MaskOf mask = some m := by
  cases mask with
  | none => exact hm
  | some s =>
    simp only [cidrMaskSpec] at hm
    simp only [ipv4MaskOf]
    by_cases hdot : s.toList.contains '.' = true
    · rw [if_pos hdot] at hm
      rw [if_pos hdot, hm]
    · rw [if_neg hdot] at hm
      rw [if_neg hdot]
      by_cases hc : s.toList ≠ [] ∧ s.toList.all isDigitC = true ∧ decVal s.toList ≤ 32
      · rw [if_pos hc] at hm
        obtain ⟨hne, hall, hle⟩ := hc
        obtain ⟨c, t, hct⟩ : ∃ c t, s.toList = c :: t := by
          cases hs : s.toList with
          | nil => exact absurd hs hne
          | cons c t => exact ⟨c, t, rfl⟩
        rw [hct] at hall hle hm ⊢
        rw [strtoul10_digits c t hall (le_trans hle (by norm_num))]
        dsimp only
        rw [if_neg (by omega)]
        exact hm
      · rw [if_neg hc] at hm
        exact Option.noConfusion hm

/-- The embedded IPv4 bytes of an IPv4-mapped address reassemble to the
original 32-bit value. -/
theorem fromBytes4_toBytes4 (v : Nat) (h : v < 2 ^ 32) :
    fromBytes4 (toBytes4 v) = v := by
  simp only [fromBytes4, toBytes4]
  omega

/-- An address built by v4mapped satisfies IN6_IS_ADDR_V4MAPPED. -/
theorem isV4Mapped_v4mapped (v : Nat) : isV4Mapped (v4mapped v) = true := by
  unfold isV4Mapped v4mapped toBytes4
  simp [List.take]

/-- Dropping the 12-byte prefix of a v4mapped address leaves the embedded
IPv4 bytes. -/
theorem v4mapped_drop (v : Nat) : (v4mapped v).drop 12 = toBytes4 v := by
  unfold v4mapped toBytes4
  simp [List.drop]

/-! ## Claim theorems -/

/-- C3: for every two strings that both parse as IPv4 literals,
network_addr_match computes the bitmask of the mask argument as the spec
describes (absent mask: all 32 bits; no '.': a decimal CIDR prefix 0-32
as a left-justified bitmask; otherwise a dotted-quad bitmask) and returns
true exactly when the two addresses are equal after masking; in
particular a valid IPv4 literal always matches itself with no mask,
10.0.0.1 and 10.0.0.2 match under mask 24, and 10.0.0.1 and 10.1.0.2 do
not. -/
theorem addr_match_ipv4_masked :
    (∀ a b ma mb mask m, inet_aton a = some ma → inet_aton b = some mb →
      cidrMaskSpec mask = some m →
      network_addr_match a b mask = decide (ma &&& m = mb &&& m)) ∧
    (∀ a x, inet_aton a = some x → network_addr_match a a none = true) ∧
    network_addr_match "10.0.0.1" "10.0.0.2" (some "24") = true ∧
    network_addr_match "10.0.0.1" "10.1.0.2" (some "24") = false := by
  refine ⟨?_, ?_, by decide, by decide⟩
  · intro a b ma mb mask m ha hb hm
    unfold network_addr_match
    rw [ha, hb, ipv4MaskOf_of_spec mask m hm]
  · intro a x h
    unfold network_addr_match
    rw [h]
    simp [ipv4MaskOf]

/-- Witness for C3: the masked-comparison contract evaluated at the
literal 10.9.8.7 against itself with no mask. -/
theorem addr_match_ipv4_masked_w :
    network_addr_match "10.9.8.7" "10.9.8.7" none = true :=
  addr_match_ipv4_masked.2.1 "10.9.8.7" 168364039 (by decide)

/-- C2 fails on the code: the empty mask is neither a decimal CIDR prefix
nor a dotted-quad bitmask, yet network_addr_match accepts it (strtoul
performs no conversion and leaves end at the terminating NUL, which the
check at line 509 does not reject), yielding a CIDR of 0 that matches any
two IPv4 literals.  The remaining conjuncts show the behaviour the claim
describes does hold at its stated examples (mask "33", "abc", "129"). -/
theorem addr_match_empty_mask_ipv4 :
    network_addr_match "10.0.0.1" "10.1.0.2" (some "") = true ∧
    network_addr_match "10.0.0.1" "10.1.0.2" none = false ∧
    network_addr_match "10.0.0.1" "10.0.0.2" (some "33") = false ∧
    network_addr_match "10.0.0.1" "10.0.0.2" (some "abc") = false ∧
    network_addr_match "::1" "::1" (some "129") = false := by
  refine ⟨by decide, by decide, by decide, by decide, by decide⟩

/-- C4 fails on the code in the same way on the IPv6 branch: two distinct
IPv6 literals under the invalid empty mask compare equal (strtoul yields
CIDR 0 at line 529 and the check at line 530 does not reject the empty
conversion), although the mask is not a decimal CIDR prefix 0-128. -/
theorem addr_match_empty_mask_ipv6 :
    network_addr_match "::1" "fe80::1" (some "") = true ∧
    network_addr_match "::1" "fe80::1" none = false := by
  refine ⟨by decide, by decide⟩

/-- C1 fails on the code: network_bind_ipv4 returns -1 for an unparsable
address (and for a failed bind) without closing the socket it created at
line 86, leaving the descriptor open, whereas network_bind_ipv6 closes
its descriptor on the same failure paths (lines 147 and 154). -/
theorem bind_ipv4_leaks_descriptor :
    (network_bind_ipv4 ⟨true, true⟩ "bogus" 4444).fd = none ∧
    (network_bind_ipv4 ⟨true, true⟩ "bogus" 4444).opened = [0] ∧
    (network_bind_ipv4 ⟨true, true⟩ "bogus" 4444).closed = [] ∧
    (network_bind_ipv4 ⟨true, false⟩ "10.0.0.1" 4444).fd = none ∧
    (network_bind_ipv4 ⟨true, false⟩ "10.0.0.1" 4444).closed = [] ∧
    (network_bind_ipv6 ⟨true, true⟩ "bogus" 4444).closed = [0] ∧
    (network_bind_ipv6 ⟨true, false⟩ "::1" 4444).closed = [0] := by
  refine ⟨by decide, by decide, by decide, by decide, by decide, by decide, by decide⟩

/-- C5: network_sockaddr_equal identifies a plain IPv4 address with the
IPv4-mapped IPv6 address embedding the same 32-bit value (in both
argument orders), never equates a plain IPv4 address with a
non-IPv4-mapped IPv6 address, and in particular equates 203.0.113.5 with
::ffff:203.0.113.5 and distinguishes it from 2001:db8::1. -/
theorem sockaddr_equal_v4mapped_ok :
    (∀ p q v, v < 2 ^ 32 →
      network_sockaddr_equal (.in4 p v) (.in6 q (v4mapped v)) = true ∧
      network_sockaddr_equal (.in6 q (v4mapped v)) (.in4 p v) = true) ∧
    (∀ p q v b6, isV4Mapped b6 = false →
      network_sockaddr_equal (.in4 p v) (.in6 q b6) = false ∧
      network_sockaddr_equal (.in6 q b6) (.in4 p v) = false) ∧
    inet_aton "203.0.113.5" = some 3405803781 ∧
    inet_pton6 "::ffff:203.0.113.5" = some (v4mapped 3405803781) ∧
    network_sockaddr_equal (.in4 0 3405803781) (.in6 0 (v4mapped 3405803781)) = true ∧
    inet_pton6 "2001:db8::1" =
      some [0x20, 0x01, 0x0d, 0xb8, 0, 0, 0, 0, 0, 0, 0, 0, 0, 0, 0, 1] ∧
    network_sockaddr_equal (.in4 0 3405803781)
      (.in6 0 [0x20, 0x01, 0x0d, 0xb8, 0, 0, 0, 0, 0, 0, 0, 0, 0, 0, 0, 1]) = false := by
  refine ⟨?_, ?_, by decide, by decide, by decide, by decide, by decide⟩
  · intro p q v hv
    constructor <;>
    · show equalMain (.in6 q (v4mapped v)) (.in4 p v) = true
      simp [equalMain, isV4Mapped_v4mapped, v4mapped_drop, fromBytes4_toBytes4 v hv]
  · intro p q v b6 h
    constructor <;>
    · show equalMain (.in6 q b6) (.in4 p v) = false
      simp [equalMain, h]

/-- Witness for C5: the mapped-equality contract evaluated at the
address 5 and the non-mapped contract at 2001:db8::1. -/
theorem sockaddr_equal_v4mapped_ok_w :
    network_sockaddr_equal (.in4 1 5) (.in6 2 (v4mapped 5)) = true :=
  (sockaddr_equal_v4mapped_ok.1 1 2 5 (by decide)).1

/-- C10: network_sockaddr_equal is commutative over all three kinds of
sockaddr (IPv4, IPv6 and any other family): the initial swap makes the
mapped-IPv4 comparison symmetric and every other branch is symmetric
already. -/
theorem sockaddr_equal_comm (a b : Sockaddr) :
    network_sockaddr_equal a b = network_sockaddr_equal b a := by
  cases a <;> cases b <;>
    first
      | rfl
      | (simp only [network_sockaddr_equal, equalMain]
         exact decide_eq_decide.mpr ⟨Eq.symm, Eq.symm⟩)

/-- C8: whenever a service identity was requested and acquiring the
scoped credential for it fails, the daemon run is exactly watchdog, a
successful configuration load, the failed acquisition and the fatal exit:
it terminates before any socket-creation or accept event can occur, in
either mode. -/
theorem credfail_dies_before_socket (env : DaemonEnv)
    (hs : env.serviceRequested = true) (hc : env.configOk = true)
    (ha : env.acquireOk = false) :
    remctld_main env = [.alarmArm 3600, .configLoad true, .acquire false, .died] ∧
    ∀ e ∈ remctld_main env, (∀ ok, e ≠ .sockCreate ok) ∧ ∀ r, e ≠ .acceptCall r := by
  have h1 : remctld_main env =
      [.alarmArm 3600, .configLoad true, .acquire false, .died] := by
    simp [remctld_main, hs, hc, ha]
  refine ⟨h1, ?_⟩
  rw [h1]
  intro e he
  fin_cases he <;> exact ⟨fun _ => by simp, fun _ => by simp⟩

/-- Concrete run for the C8 witness: standalone mode, service requested,
configuration loads, acquisition fails. -/
def envC8 : DaemonEnv := ⟨true, true, true, false, true, false, true, .v1, []⟩

/-- Witness for C8: the fatal-before-bind contract evaluated on a
concrete standalone run with a failing credential acquisition. -/
theorem credfail_dies_before_socket_w :
    remctld_main envC8 = [.alarmArm 3600, .configLoad true, .acquire false, .died] :=
  (credfail_dies_before_socket envC8 rfl rfl rfl).1

/-- One accept event per iteration and none inside a handler block. -/
theorem numAccepts_cons (e : MainEv) (t : List MainEv) :
    numAccepts (e :: t) =
      numAccepts t + (match e with | .acceptCall _ => 1 | _ => 0) := by
  cases e <;> simp [numAccepts, List.filter_cons]

/-- numAccepts distributes over concatenation. -/
theorem numAccepts_append (xs ys : List MainEv) :
    numAccepts (xs ++ ys) = numAccepts xs + numAccepts ys := by
  simp [numAccepts, List.filter_append]

/-- C9: the standalone accept loop consumes every accept outcome — one
accept call per outcome, so neither a failed accept nor a failed handler
ever terminates the loop — and its trace is exactly the concatenation, in
order, of one complete per-connection block per outcome: the handler
events of a connection are finished before the next accept call begins
(single-threaded serving). -/
theorem accept_loop_serves_on :
    (∀ (n : Nat) (evs : List AcceptEv),
      numAccepts (acceptLoop n evs) = evs.length) ∧
    ∀ (n : Nat) (evs : List AcceptEv), acceptLoop n evs = acceptLoopSpec n evs := by
  constructor
  · intro n evs
    induction evs generalizing n with
    | nil => rfl
    | cons e t ih =>
      cases e with
      | fail => simp [acceptLoop, numAccepts_cons, ih]
      | conn h =>
        cases h <;>
          simp [acceptLoop, handleConnTr, numAccepts_cons, numAccepts_append, ih]
  · intro n evs
    induction evs generalizing n with
    | nil => rfl
    | cons e t ih =>
      cases e with
      | fail => simp [acceptLoop, acceptLoopSpec, iterSpec, connInc, ih]
      | conn h => simp [acceptLoop, acceptLoopSpec, iterSpec, connInc, ih]

/-- Leftover descriptor of the previous attempt, as the list of closes
the next iteration performs. -/
def fdvClosed : Option Nat → List Nat
  | some f => [f]
  | none => []

/-- Number of descriptors open when the loop iteration starts. -/
def ofFdCount : Option Nat → Nat
  | some _ => 1
  | none => 0

theorem openAfter_cons (e : ConnEv) (t : List ConnEv) (c : Nat) :
    openAfter (e :: t) c = openAfter t (openStep c e) := rfl

theorem boundedOpen_append (xs ys : List ConnEv) (c : Nat) :
    boundedOpen (xs ++ ys) c =
      (boundedOpen xs c && boundedOpen ys (openAfter xs c)) := by
  induction xs generalizing c with
  | nil => simp [boundedOpen, openAfter]
  | cons e t ih => simp [boundedOpen, ih, openAfter_cons, Bool.and_assoc]

theorem sockFds_append (xs ys : List ConnEv) :
    sockFds (xs ++ ys) = sockFds xs ++ sockFds ys := by
  simp [sockFds, List.filterMap_append]

theorem closedFds_append (xs ys : List ConnEv) :
    closedFds (xs ++ ys) = closedFds xs ++ closedFds ys := by
  simp [closedFds, List.filterMap_append]

theorem countSockOk_cons (c : Candidate) (t : List Candidate) :
    countSockOk (c :: t) = countSockOk t + (if sockOkB c then 1 else 0) := by
  by_cases h : sockOkB c = true
  · simp [countSockOk, List.filter_cons, h]
  · simp [countSockOk, List.filter_cons, h]

theorem range'_succ_l (s n : Nat) :
    List.range' s (n + 1) = s :: List.range' (s + 1) n := rfl

/-- A fully successful candidate has all three call outcomes positive. -/
theorem fullOk_dest (c : Candidate) (h : fullOk c = true) :
    c.sock = .ok ∧ c.src = .ok ∧ c.connOk = true := by
  obtain ⟨sk, sr, co, ce⟩ := c
  cases sk <;> cases sr <;> simp [fullOk] at h ⊢ <;> exact h

/-- Unrolling firstFullOk past a candidate that is not fully
successful. -/
theorem firstFullOk_cons_of_not (c : Candidate) (t : List Candidate) (k : Nat)
    (h : fullOk c = false) (hk : firstFullOk (c :: t) = some k) :
    ∃ kp, firstFullOk t = some kp ∧ k = kp + 1 := by
  simp only [firstFullOk, h] at hk
  cases hf : firstFullOk t with
  | none => rw [hf] at hk; simp at hk
  | some kp =>
    rw [hf] at hk
    simp at hk
    exact ⟨kp, rfl, hk.symm⟩

/-- If no candidate is fully successful, neither is the head, nor any in
the tail. -/
theorem firstFullOk_cons_none (c : Candidate) (t : List Candidate)
    (hk : firstFullOk (c :: t) = none) :
    fullOk c = false ∧ firstFullOk t = none := by
  cases hfo : fullOk c with
  | true => simp [firstFullOk, hfo] at hk
  | false =>
    simp only [firstFullOk, hfo] at hk
    exact ⟨rfl, by simpa using hk⟩

theorem sockFds_nil : sockFds [] = [] := rfl

theorem sockFds_cons_close (f : Nat) (t : List ConnEv) :
    sockFds (.closeEv f :: t) = sockFds t := rfl

theorem sockFds_cons_sock_some (f : Nat) (t : List ConnEv) :
    sockFds (.sockEv (some f) :: t) = f :: sockFds t := rfl

theorem sockFds_cons_sock_none (t : List ConnEv) :
    sockFds (.sockEv none :: t) = sockFds t := rfl

theorem sockFds_cons_src (f : Nat) (b : Bool) (t : List ConnEv) :
    sockFds (.srcEv f b :: t) = sockFds t := rfl

theorem sockFds_cons_conn (f : Nat) (b : Bool) (t : List ConnEv) :
    sockFds (.connEv f b :: t) = sockFds t := rfl

theorem closedFds_nil : closedFds [] = [] := rfl

theorem closedFds_cons_close (f : Nat) (t : List ConnEv) :
    closedFds (.closeEv f :: t) = f :: closedFds t := rfl

theorem closedFds_cons_sock (r : Option Nat) (t : List ConnEv) :
    closedFds (.sockEv r :: t) = closedFds t := rfl

theorem closedFds_cons_src (f : Nat) (b : Bool) (t : List ConnEv) :
    closedFds (.srcEv f b :: t) = closedFds t := rfl

theorem closedFds_cons_conn (f : Nat) (b : Bool) (t : List ConnEv) :
    closedFds (.connEv f b :: t) = closedFds t := rfl

/-- Characterization of the candidate loop when some candidate fully
succeeds: the loop returns the descriptor allocated for the first fully
successful candidate (one descriptor having been allocated for each
earlier candidate whose socket() call succeeded), every earlier
descriptor and the leftover one have been closed in order, and at no
point during the run is more than one descriptor open. -/
theorem connectLoop_success (cs : List Candidate) : ∀ (k : Nat),
    firstFullOk cs = some k → ∀ (fdv : Option Nat) (st : ConnSt),
    (connectLoop cs fdv st).1 = some (st.nextFd + countSockOk (cs.take k)) ∧
    sockFds (connectLoop cs fdv st).2.2 =
      List.range' st.nextFd (countSockOk (cs.take k) + 1) ∧
    closedFds (connectLoop cs fdv st).2.2 =
      fdvClosed fdv ++ List.range' st.nextFd (countSockOk (cs.take k)) ∧
    boundedOpen (connectLoop cs fdv st).2.2 (ofFdCount fdv) = true := by
  induction cs with
  | nil => intro k hk; exact Option.noConfusion hk
  | cons c t ih =>
    intro k hk fdv st
    by_cases hfo : fullOk c = true
    · have hk0 : k = 0 := by
        simp [firstFullOk, hfo] at hk
        omega
      subst hk0
      obtain ⟨hsock, hsrc, hconn⟩ := fullOk_dest c hfo
      obtain ⟨sk, sr, co, ce⟩ := c
      simp only at hsock hsrc hconn
      subst hsock
      subst hsrc
      subst hconn
      cases fdv <;>
        simp [connectLoop, sockFds_cons_close, sockFds_cons_sock_some,
              sockFds_cons_src, sockFds_cons_conn, sockFds_nil,
              closedFds_cons_close, closedFds_cons_sock, closedFds_cons_src,
              closedFds_cons_conn, closedFds_nil, boundedOpen, openStep,
              fdvClosed, ofFdCount, countSockOk, range'_succ_l]
    · have hfo' : fullOk c = false := by
        cases hx : fullOk c
        · rfl
        · exact absurd hx hfo
      obtain ⟨kp, hkp, hkeq⟩ := firstFullOk_cons_of_not c t k hfo' hk
      subst hkeq
      obtain ⟨sk, sr, co, ce⟩ := c
      cases sk with
      | fail e =>
        obtain ⟨ih1, ih2, ih3, ih4⟩ := ih kp hkp none { st with errno := e }
        simp only [ofFdCount, fdvClosed, List.nil_append] at ih3 ih4
        cases fdv <;>
          simp [connectLoop, sockFds_cons_close, sockFds_cons_sock_some,
                sockFds_cons_sock_none, sockFds_cons_src, sockFds_cons_conn,
                closedFds_cons_close, closedFds_cons_sock, closedFds_cons_src,
                closedFds_cons_conn, sockFds_nil, closedFds_nil,
                boundedOpen, openStep, fdvClosed, ofFdCount,
                countSockOk_cons, sockOkB, List.take_succ_cons,
                ih1, ih2, ih3, ih4]
      | ok =>
        cases sr with
        | parseFail =>
          obtain ⟨ih1, ih2, ih3, ih4⟩ :=
            ih kp hkp (some st.nextFd) { st with nextFd := st.nextFd + 1 }
          simp only [ofFdCount, fdvClosed] at ih3 ih4
          cases fdv <;>
            (simp [connectLoop, sockFds_cons_close, sockFds_cons_sock_some,
                   sockFds_cons_sock_none, sockFds_cons_src, sockFds_cons_conn,
                   closedFds_cons_close, closedFds_cons_sock, closedFds_cons_src,
                   closedFds_cons_conn, sockFds_nil, closedFds_nil,
                   boundedOpen, openStep, fdvClosed, ofFdCount,
                   countSockOk_cons, sockOkB, List.take_succ_cons,
                   range'_succ_l, ih1, ih2, ih3, ih4]) <;>
            omega
        | bindFail e =>
          obtain ⟨ih1, ih2, ih3, ih4⟩ :=
            ih kp hkp (some st.nextFd) { st with nextFd := st.nextFd + 1, errno := e }
          simp only [ofFdCount, fdvClosed] at ih3 ih4
          cases fdv <;>
            (simp [connectLoop, sockFds_cons_close, sockFds_cons_sock_some,
                   sockFds_cons_sock_none, sockFds_cons_src, sockFds_cons_conn,
                   closedFds_cons_close, closedFds_cons_sock, closedFds_cons_src,
                   closedFds_cons_conn, sockFds_nil, closedFds_nil,
                   boundedOpen, openStep, fdvClosed, ofFdCount,
                   countSockOk_cons, sockOkB, List.take_succ_cons,
                   range'_succ_l, ih1, ih2, ih3, ih4]) <;>
            omega
        | ok =>
          have hco : co = false := by simpa [fullOk] using hfo'
          subst hco
          obtain ⟨ih1, ih2, ih3, ih4⟩ :=
            ih kp hkp (some st.nextFd) { st with nextFd := st.nextFd + 1, errno := ce }
          simp only [ofFdCount, fdvClosed] at ih3 ih4
          cases fdv <;>
            (simp [connectLoop, sockFds_cons_close, sockFds_cons_sock_some,
                   sockFds_cons_sock_none, sockFds_cons_src, sockFds_cons_conn,
                   closedFds_cons_close, closedFds_cons_sock, closedFds_cons_src,
                   closedFds_cons_conn, sockFds_nil, closedFds_nil,
                   boundedOpen, openStep, fdvClosed, ofFdCount,
                   countSockOk_cons, sockOkB, List.take_succ_cons,
                   range'_succ_l, ih1, ih2, ih3, ih4]) <;>
            omega

/-- Characterization of the candidate loop when no candidate fully
succeeds: the loop fails, every descriptor it allocated (one per
candidate with a successful socket() call) and the leftover one have been
closed in order, errno holds the fold of the per-candidate error updates
(the most recent failure), and at no point is more than one descriptor
open. -/
theorem connectLoop_fail (cs : List Candidate) :
    firstFullOk cs = none → ∀ (fdv : Option Nat) (st : ConnSt),
    (connectLoop cs fdv st).1 = none ∧
    sockFds (connectLoop cs fdv st).2.2 = List.range' st.nextFd (countSockOk cs) ∧
    closedFds (connectLoop cs fdv st).2.2 =
      fdvClosed fdv ++ List.range' st.nextFd (countSockOk cs) ∧
    (connectLoop cs fdv st).2.1.errno = List.foldl errStep st.errno cs ∧
    boundedOpen (connectLoop cs fdv st).2.2 (ofFdCount fdv) = true := by
  induction cs with
  | nil =>
    intro _ fdv st
    cases fdv <;>
      simp [connectLoop, sockFds_nil, sockFds_cons_close, closedFds_nil,
            closedFds_cons_close, countSockOk, fdvClosed, ofFdCount,
            boundedOpen, openStep]
  | cons c t ih =>
    intro hk fdv st
    obtain ⟨hfo, hnone⟩ := firstFullOk_cons_none c t hk
    obtain ⟨sk, sr, co, ce⟩ := c
    cases sk with
    | fail e =>
      obtain ⟨ih1, ih2, ih3, ih4, ih5⟩ := ih hnone none { st with errno := e }
      simp only [ofFdCount, fdvClosed, List.nil_append] at ih3 ih5
      cases fdv <;>
        simp [connectLoop, sockFds_cons_close, sockFds_cons_sock_some,
              sockFds_cons_sock_none, sockFds_cons_src, sockFds_cons_conn,
              closedFds_cons_close, closedFds_cons_sock, closedFds_cons_src,
              closedFds_cons_conn, sockFds_nil, closedFds_nil,
              boundedOpen, openStep, fdvClosed, ofFdCount,
              countSockOk_cons, sockOkB, errStep,
              ih1, ih2, ih3, ih4, ih5]
    | ok =>
      cases sr with
      | parseFail =>
        obtain ⟨ih1, ih2, ih3, ih4, ih5⟩ :=
          ih hnone (some st.nextFd) { st with nextFd := st.nextFd + 1 }
        simp only [ofFdCount, fdvClosed] at ih3 ih5
        cases fdv <;>
          (simp [connectLoop, sockFds_cons_close, sockFds_cons_sock_some,
                 sockFds_cons_sock_none, sockFds_cons_src, sockFds_cons_conn,
                 closedFds_cons_close, closedFds_cons_sock, closedFds_cons_src,
                 closedFds_cons_conn, sockFds_nil, closedFds_nil,
                 boundedOpen, openStep, fdvClosed, ofFdCount,
                 countSockOk_cons, sockOkB, errStep, range'_succ_l,
                 ih1, ih2, ih3, ih4, ih5])
      | bindFail e =>
        obtain ⟨ih1, ih2, ih3, ih4, ih5⟩ :=
          ih hnone (some st.nextFd) { st with nextFd := st.nextFd + 1, errno := e }
        simp only [ofFdCount, fdvClosed] at ih3 ih5
        cases fdv <;>
          (simp [connectLoop, sockFds_cons_close, sockFds_cons_sock_some,
                 sockFds_cons_sock_none, sockFds_cons_src, sockFds_cons_conn,
                 closedFds_cons_close, closedFds_cons_sock, closedFds_cons_src,
                 closedFds_cons_conn, sockFds_nil, closedFds_nil,
                 boundedOpen, openStep, fdvClosed, ofFdCount,
                 countSockOk_cons, sockOkB, errStep, range'_succ_l,
                 ih1, ih2, ih3, ih4, ih5])
      | ok =>
        have hco : co = false := by simpa [fullOk] using hfo
        subst hco
        obtain ⟨ih1, ih2, ih3, ih4, ih5⟩ :=
          ih hnone (some st.nextFd) { st with nextFd := st.nextFd + 1, errno := ce }
        simp only [ofFdCount, fdvClosed] at ih3 ih5
        cases fdv <;>
          (simp [connectLoop, sockFds_cons_close, sockFds_cons_sock_some,
                 sockFds_cons_sock_none, sockFds_cons_src, sockFds_cons_conn,
                 closedFds_cons_close, closedFds_cons_sock, closedFds_cons_src,
                 closedFds_cons_conn, sockFds_nil, closedFds_nil,
                 boundedOpen, openStep, fdvClosed, ofFdCount,
                 countSockOk_cons, sockOkB, errStep, range'_succ_l,
                 ih1, ih2, ih3, ih4, ih5])

/-- C6: network_connect attempts the candidates in the order supplied —
descriptors are allocated consecutively, one per candidate with a
successful socket() call, and no descriptor is allocated past the first
fully successful candidate — a candidate whose socket creation or source
bind fails is merely skipped (the first fully successful candidate may
come after any number of such failures), the call stops at the first
candidate whose connect succeeds and returns that candidate's descriptor,
every earlier descriptor has been closed, and at no point are two
descriptors open at once (the leftover socket of a prior attempt is
closed before a new one is created). -/
theorem network_connect_first_success (cs : List Candidate) (e0 k : Nat)
    (hk : firstFullOk cs = some k) :
    (network_connect cs e0).1 = some (countSockOk (cs.take k)) ∧
    sockFds (network_connect cs e0).2.2 =
      List.range' 0 (countSockOk (cs.take k) + 1) ∧
    closedFds (network_connect cs e0).2.2 =
      List.range' 0 (countSockOk (cs.take k)) ∧
    boundedOpen (network_connect cs e0).2.2 0 = true := by
  have h := connectLoop_success cs k hk none ⟨0, e0⟩
  simpa [network_connect, fdvClosed, ofFdCount] using h

/-- Witness for C6: a failing-socket candidate and a failing-source-bind
candidate are skipped and the third candidate's connect succeeds, so the
call returns descriptor 1 (the second descriptor allocated), having
closed descriptor 0. -/
theorem network_connect_first_success_w :
    (network_connect [⟨.fail 97, .ok, false, 0⟩, ⟨.ok, .bindFail 13, false, 0⟩,
        ⟨.ok, .ok, true, 0⟩] 5).1 = some 1 :=
  (network_connect_first_success
    [⟨.fail 97, .ok, false, 0⟩, ⟨.ok, .bindFail 13, false, 0⟩, ⟨.ok, .ok, true, 0⟩]
    5 2 (by decide)).1

/-- C7: when no candidate connects, network_connect returns failure, the
descriptors it closed are exactly the descriptors it created (no leaks),
and the final errno is the fold of the per-candidate error updates, i.e.
the most recent underlying error code. -/
theorem network_connect_all_fail (cs : List Candidate) (e0 : Nat)
    (h : firstFullOk cs = none) :
    (network_connect cs e0).1 = none ∧
    closedFds (network_connect cs e0).2.2 = sockFds (network_connect cs e0).2.2 ∧
    (network_connect cs e0).2.1.errno = List.foldl errStep e0 cs ∧
    boundedOpen (network_connect cs e0).2.2 0 = true := by
  have hh := connectLoop_fail cs h none ⟨0, e0⟩
  obtain ⟨h1, h2, h3, h4, h5⟩ := hh
  refine ⟨h1, ?_, by simpa [network_connect] using h4,
    by simpa [network_connect, ofFdCount] using h5⟩
  show closedFds (connectLoop cs none ⟨0, e0⟩).2.2 =
    sockFds (connectLoop cs none ⟨0, e0⟩).2.2
  rw [h3, h2]
  simp [fdvClosed]

/-- Witness for C7: two unsuccessful candidates — the loop fails, closes
exactly the one descriptor it created, and errno holds the last connect
failure's code 111. -/
theorem network_connect_all_fail_w :
    (network_connect [⟨.fail 97, .ok, false, 0⟩, ⟨.ok, .ok, false, 111⟩] 5).1 = none ∧
    closedFds (network_connect [⟨.fail 97, .ok, false, 0⟩, ⟨.ok, .ok, false, 111⟩] 5).2.2 =
      sockFds (network_connect [⟨.fail 97, .ok, false, 0⟩, ⟨.ok, .ok, false, 111⟩] 5).2.2 ∧
    (network_connect [⟨.fail 97, .ok, false, 0⟩, ⟨.ok, .ok, false, 111⟩] 5).2.1.errno = 111 := by
  have h := network_connect_all_fail
    [⟨.fail 97, .ok, false, 0⟩, ⟨.ok, .ok, false, 111⟩] 5 (by decide)
  exact ⟨h.1, h.2.1, h.2.2.1⟩
